import Mathlib

/-!
Verification of the date / ISO-week conversion engine and the calendar
navigation state machine of the obsidian-daily-reports viewer.

Dates are embedded as integer day numbers (days since 1970-01-01) of the
proleptic Gregorian calendar; the civil conversion functions below embed
the behaviour of the JS `Date` accessors (`getFullYear`, `getMonth`,
`getDate`, `getDay`) and of date construction with month / day-of-month
normalization (`Date.UTC`, `setDate`, `setMonth`, `setFullYear`) on
timezone-naive calendar dates.  Each `get...` / `parse...` / `format...` /
`calendarRows` / `handle...` definition is a direct translation of the
function of the same name in the repository sources.
-/

/-- Leap-year test, as written in `getWeeksInYear`:
`(year % 4 === 0 && year % 100 !== 0) || year % 400 === 0`
(agreement of a remainder with 0 does not depend on the remainder
convention, so `Int.emod` is faithful to the JS `%`). -/
def isLeap (y : Int) : Bool := (y % 4 == 0 && y % 100 != 0) || y % 400 == 0

/-- Day number of January 1 of year `y` (days since 1970-01-01), by the
standard Gregorian day count (365 per year plus leap corrections). -/
def jan1 (y : Int) : Int :=
  365 * (y - 1) + (y - 1) / 4 - (y - 1) / 100 + (y - 1) / 400 - 719162

/-- Calendar year containing day number `n` (embeds `getFullYear` /
`getUTCFullYear`): a linear first guess, corrected by comparing with
`jan1`. -/
def yearOfDay (n : Int) : Int :=
  if n < jan1 ((400 * (n + 719162)) / 146097 + 1) then
    (400 * (n + 719162)) / 146097
  else if n < jan1 ((400 * (n + 719162)) / 146097 + 2) then
    (400 * (n + 719162)) / 146097 + 1
  else
    (400 * (n + 719162)) / 146097 + 2

/-- One extra day in a leap year. -/
def leapDays (y : Int) : Int := if isLeap y then 1 else 0

/-- Days from January 1 to the first day of month index `m`, given the
leap correction `L` of the year.  For `m ≥ 2` the cumulative lengths
`59 + L, 90 + L, ..., 334 + L, 365 + L` are produced by the classic
`(153 * k + 2) / 5` encoding of the 31/30-day month pattern. -/
def monthOffsetL (L : Int) (m : Int) : Int :=
  if m ≤ 0 then 0
  else if m = 1 then 31
  else 59 + L + (153 * (m - 2) + 2) / 5

/-- Days from January 1 of year `y` to the first day of month index `m`
(0 = January, 12 = January of the next year). -/
def monthOffset (y : Int) (m : Int) : Int := monthOffsetL (leapDays y) m

/-- Day number of the calendar date `(y, m, d)` with month index `m`
(0 = January) and day-of-month `d`, embedding the JS `Date` constructor
normalization: month indices outside `0..11` carry into adjacent years,
day values outside the month length carry into adjacent months. -/
def daysFromCivil (y m d : Int) : Int :=
  jan1 (y + m / 12) + monthOffset (y + m / 12) (m % 12) + (d - 1)

/-- Zero-based day of year of day number `n`. -/
def doyOf (n : Int) : Int := n - jan1 (yearOfDay n)

/-- Month index of a zero-based day of year `D`, given the leap
correction `L` (inverse of `monthOffsetL`). -/
def monthOfL (L : Int) (D : Int) : Int :=
  if D < 31 then 0
  else if D < 59 + L then 1
  else 2 + (5 * (D - 59 - L) + 2) / 153

/-- Month index (0 = January .. 11 = December) of day number `n`
(embeds `getMonth` / `getUTCMonth`). -/
def monthOf (n : Int) : Int := monthOfL (leapDays (yearOfDay n)) (doyOf n)

/-- Day of month (1..31) of day number `n` (embeds `getDate` /
`getUTCDate`). -/
def dayOf (n : Int) : Int := doyOf n - monthOffset (yearOfDay n) (monthOf n) + 1

/-- Day of week of day number `n`, 0 = Sunday .. 6 = Saturday (embeds
`getDay` / `getUTCDay`; 1970-01-01 was a Thursday). -/
def weekday (n : Int) : Int := (n + 4) % 7

/-- Length in days of the month with index `m` of year `y`. -/
def monthLen (y m : Int) : Int := monthOffset y (m + 1) - monthOffset y m

section CivilLemmas

/-- `jan1` is monotone. -/
theorem jan1_mono {a b : Int} (h : a ≤ b) : jan1 a ≤ jan1 b := by
  unfold jan1; omega

/-- The boolean leap test agrees with the arithmetic leap condition. -/
theorem isLeap_iff (y : Int) :
    isLeap y = true ↔ ((y % 4 = 0 ∧ y % 100 ≠ 0) ∨ y % 400 = 0) := by
  unfold isLeap
  simp [Bool.or_eq_true, Bool.and_eq_true, beq_iff_eq, bne_iff_ne]

theorem leapDays_bounds (y : Int) : 0 ≤ leapDays y ∧ leapDays y ≤ 1 := by
  unfold leapDays
  split_ifs <;> omega

/-- A year has 365 days, or 366 when leap. -/
theorem jan1_succ (y : Int) : jan1 (y + 1) = jan1 y + 365 + leapDays y := by
  unfold leapDays
  by_cases h : isLeap y = true
  · rw [if_pos h]
    rw [isLeap_iff] at h
    unfold jan1
    omega
  · rw [if_neg h]
    rw [isLeap_iff] at h
    unfold jan1
    omega

/-- `yearOfDay` is correct: day `n` lies between January 1 of its year and
January 1 of the following year. -/
theorem yearOfDay_bracket (n : Int) :
    jan1 (yearOfDay n) ≤ n ∧ n < jan1 (yearOfDay n + 1) := by
  have key : ∀ c : Int, 146097 * c ≤ 400 * (n + 719162) →
      400 * (n + 719162) < 146097 * (c + 1) →
      (jan1 c ≤ n) ∧ (n < jan1 (c + 3)) := by
    intro c h1 h2
    unfold jan1
    constructor <;> omega
  have hg1 : 146097 * ((400 * (n + 719162)) / 146097) ≤ 400 * (n + 719162) := by
    omega
  have hg2 : 400 * (n + 719162) <
      146097 * ((400 * (n + 719162)) / 146097 + 1) := by
    omega
  obtain ⟨k1, k2⟩ := key _ hg1 hg2
  unfold yearOfDay
  split_ifs with ha hb
  · exact ⟨k1, ha⟩
  · refine ⟨le_of_not_lt ha, ?_⟩
    have he : (400 * (n + 719162)) / 146097 + 1 + 1 =
        (400 * (n + 719162)) / 146097 + 2 := by ring
    rw [he]
    exact hb
  · refine ⟨le_of_not_lt hb, ?_⟩
    have he : (400 * (n + 719162)) / 146097 + 2 + 1 =
        (400 * (n + 719162)) / 146097 + 3 := by ring
    rw [he]
    exact k2

/-- The year bracket determines `yearOfDay`. -/
theorem yearOfDay_eq_of_bracket {Y n : Int} (h1 : jan1 Y ≤ n)
    (h2 : n < jan1 (Y + 1)) : yearOfDay n = Y := by
  obtain ⟨b1, b2⟩ := yearOfDay_bracket n
  rcases lt_trichotomy (yearOfDay n) Y with h | h | h
  · have := jan1_mono (show yearOfDay n + 1 ≤ Y by omega)
    omega
  · exact h
  · have := jan1_mono (show Y + 1 ≤ yearOfDay n by omega)
    omega

/-- Day-of-year bounds. -/
theorem doyOf_bounds (n : Int) :
    0 ≤ doyOf n ∧ doyOf n < 365 + leapDays (yearOfDay n) := by
  obtain ⟨h1, h2⟩ := yearOfDay_bracket n
  have h3 := jan1_succ (yearOfDay n)
  unfold doyOf
  omega

theorem monthOffset_nonneg (y m : Int) : 0 ≤ monthOffset y m := by
  have := leapDays_bounds y
  unfold monthOffset monthOffsetL
  split_ifs <;> omega

theorem monthOffset_le_year (y m : Int) (hm : m ≤ 12) :
    monthOffset y m ≤ 365 + leapDays y := by
  have := leapDays_bounds y
  unfold monthOffset monthOffsetL
  split_ifs <;> omega

theorem monthOffset_mono (y : Int) {a b : Int} (hab : a ≤ b) :
    monthOffset y a ≤ monthOffset y b := by
  have := leapDays_bounds y
  unfold monthOffset monthOffsetL
  split_ifs <;> omega

theorem monthLen_bounds (y m : Int) (h0 : 0 ≤ m) (h1 : m ≤ 11) :
    28 ≤ monthLen y m ∧ monthLen y m ≤ 31 := by
  have := leapDays_bounds y
  unfold monthLen monthOffset monthOffsetL
  split_ifs <;> omega

/-- `monthOf` lands in `0..11` and brackets the day of year between the
month start offsets. -/
theorem monthOf_sandwich (n : Int) :
    0 ≤ monthOf n ∧ monthOf n ≤ 11 ∧
      monthOffset (yearOfDay n) (monthOf n) ≤ doyOf n ∧
      doyOf n < monthOffset (yearOfDay n) (monthOf n + 1) := by
  obtain ⟨hD0, hD1⟩ := doyOf_bounds n
  have hL := leapDays_bounds (yearOfDay n)
  unfold monthOf monthOffset monthOfL monthOffsetL
  split_ifs <;> omega

/-- The month bracket determines `monthOf`. -/
theorem monthOf_eq (n m : Int) (_hm0 : 0 ≤ m) (_hm1 : m ≤ 11)
    (hlo : monthOffset (yearOfDay n) m ≤ doyOf n)
    (hhi : doyOf n < monthOffset (yearOfDay n) (m + 1)) : monthOf n = m := by
  obtain ⟨s0, s1, s2, s3⟩ := monthOf_sandwich n
  rcases lt_trichotomy (monthOf n) m with h | h | h
  · have := monthOffset_mono (yearOfDay n) (show monthOf n + 1 ≤ m by omega)
    omega
  · exact h
  · have := monthOffset_mono (yearOfDay n) (show m + 1 ≤ monthOf n by omega)
    omega

theorem dayOf_bounds (n : Int) : 1 ≤ dayOf n ∧ dayOf n ≤ 31 := by
  obtain ⟨s0, s1, s2, s3⟩ := monthOf_sandwich n
  obtain ⟨l28, l31⟩ := monthLen_bounds (yearOfDay n) (monthOf n) s0 s1
  unfold monthLen at l28 l31
  unfold dayOf
  omega

/-- Round trip: a well-formed civil triple is recovered from its day
number. -/
theorem civil_inverse (y m d : Int) (hm0 : 0 ≤ m) (hm1 : m ≤ 11)
    (hd0 : 1 ≤ d) (hd1 : d ≤ monthLen y m) :
    yearOfDay (daysFromCivil y m d) = y ∧
      monthOf (daysFromCivil y m d) = m ∧
      dayOf (daysFromCivil y m d) = d := by
  have hdiv : m / 12 = 0 := by omega
  have hmod : m % 12 = m := by omega
  have hn : daysFromCivil y m d = jan1 y + monthOffset y m + (d - 1) := by
    unfold daysFromCivil
    rw [hdiv, hmod, add_zero]
  have hoff0 : 0 ≤ monthOffset y m := monthOffset_nonneg y m
  have hoff1 : monthOffset y (m + 1) ≤ 365 + leapDays y :=
    monthOffset_le_year y (m + 1) (by omega)
  have hlen : monthLen y m = monthOffset y (m + 1) - monthOffset y m := rfl
  have hyr : yearOfDay (daysFromCivil y m d) = y := by
    apply yearOfDay_eq_of_bracket
    · rw [hn]; omega
    · rw [hn, jan1_succ]
      omega
  have hdoy : doyOf (daysFromCivil y m d) = monthOffset y m + (d - 1) := by
    unfold doyOf
    rw [hyr, hn]
    ring
  have hmo : monthOf (daysFromCivil y m d) = m := by
    apply monthOf_eq _ m hm0 hm1 <;> rw [hyr, hdoy] <;> omega
  refine ⟨hyr, hmo, ?_⟩
  unfold dayOf
  rw [hyr, hmo, hdoy]
  omega

end CivilLemmas

/-- Day-of-week with Sunday mapped to 7 (`d.getUTCDay() || 7`). -/
def dayNum (n : Int) : Int := if weekday n = 0 then 7 else weekday n

/-- Embeds `getISOWeek` (src/unnamed/part_007): shift the date to the
Thursday of its Monday-to-Sunday week, then count weeks from January 1
of the Thursday's year; `Math.ceil((diff + 1) / 7)` on an integer day
difference `diff ≥ 0` is `(diff + 1 + 6) / 7` rounding down. -/
def getISOWeek (n : Int) : Int :=
  (n + 4 - dayNum n - jan1 (yearOfDay (n + 4 - dayNum n)) + 7) / 7

/-- Embeds `getISOYear` (src/unnamed/part_007): the calendar year of the
Thursday of the date's Monday-to-Sunday week. -/
def getISOYear (n : Int) : Int := yearOfDay (n + 4 - dayNum n)

/-- Embeds `getDateFromWeek` (src/unnamed/part_007):
`Date.UTC(year, 0, 1 + (week - 1) * 7)` normalizes the overflowing
day-of-month, then the seed is moved to the Monday of its ISO week. -/
def getDateFromWeek (year week : Int) : Int :=
  let simple := daysFromCivil year 0 (1 + (week - 1) * 7)
  let dow := weekday simple
  if dow ≤ 4 then simple - dow + 1 else simple + 8 - dow

/-- Embeds `getWeeksInYear` (src/unnamed/part_007): looks at the weekday
of December 31 (`new Date(year, 11, 31)`). -/
def getWeeksInYear (year : Int) : Int :=
  let day := weekday (daysFromCivil year 11 31)
  if day = 4 ∨ (isLeap year = true ∧ day = 3) then 53 else 52

/-- Decimal digits of `n`, most significant first, accumulated into
`acc`; structural fuel makes the recursion kernel-reducible. -/
def natToStrAux : Nat → Nat → List Char → List Char
  | 0, _, acc => acc
  | f + 1, n, acc =>
    if n < 10 then Char.ofNat (48 + n) :: acc
    else natToStrAux f (n / 10) (Char.ofNat (48 + n % 10) :: acc)

/-- Decimal string of a natural number (`Number.prototype.toString`). -/
def natToStr (n : Nat) : String := String.mk (natToStrAux (n + 1) n [])

/-- Decimal string of an integer (template-literal `${x}` on a JS
integer-valued number). -/
def intToStr (i : Int) : String :=
  if i < 0 then "-" ++ natToStr i.natAbs else natToStr i.toNat

/-- Embeds `.padStart(2, "0")`. -/
def padTwo (s : String) : String :=
  if s.length < 2 then String.mk (List.replicate (2 - s.length) '0') ++ s else s

/-- Embeds `formatWeekString` (src/unnamed/part_007):
`year + "-W" + week.toString().padStart(2, "0")`. -/
def formatWeekString (year week : Int) : String :=
  intToStr year ++ "-W" ++ padTwo (intToStr week)

/-- Embeds `formatDate` (src/unnamed/part_007): `YYYY-MM-DD` with
two-digit padded month (index + 1) and day. -/
def formatDate (n : Int) : String :=
  intToStr (yearOfDay n) ++ "-" ++ padTwo (intToStr (monthOf n + 1)) ++ "-" ++
    padTwo (intToStr (dayOf n))

/-- Numeric value of a digit character (`parseInt` on a digit). -/
def charVal (c : Char) : Int := (c.toNat : Int) - 48

/-- The regular expression `^(\d{4})-W(\d{2})$` of `parseWeekString`,
together with `parseInt` on the two captured digit groups. -/
def parseWeekPattern (s : String) : Option (Int × Int) :=
  match s.data with
  | [a, b, c, d, e, f, g, h] =>
    if a.isDigit && b.isDigit && c.isDigit && d.isDigit &&
        e == '-' && f == 'W' && g.isDigit && h.isDigit then
      some (1000 * charVal a + 100 * charVal b + 10 * charVal c + charVal d,
        10 * charVal g + charVal h)
    else none
  | _ => none

/-- Embeds `parseWeekString` (src/unnamed/part_007).  The ambient
`new Date()` is passed explicitly as the day number `today`; on a failed
pattern match the code returns `today.getFullYear()` (the calendar year)
paired with `getISOWeek(today)`. -/
def parseWeekString (s : String) (today : Int) : Int × Int :=
  match parseWeekPattern s with
  | none => (yearOfDay today, getISOWeek today)
  | some yw => yw

/-- Embeds the day cell objects built in `calendarRows`
(src/src/components/calendar/CalendarGrid.tsx); `day` is the underlying
day number of the cell (the loop variable `current` at push time). -/
structure DayCell where
  day : Int
  date : Int
  dateString : String
  isCurrentMonth : Bool
  isAvailable : Bool
  isSelected : Bool
deriving DecidableEq, Inhabited

/-- Embeds the week row objects built in `calendarRows`. -/
structure WeekRow where
  weekNumber : Int
  weekYear : Int
  weekString : String
  isWeekAvailable : Bool
  isWeekSelected : Bool
  days : List DayCell
deriving DecidableEq, Inhabited

/-- The week-chunking loop of `calendarRows`: starting days of the
successive rows, guarded by `current <= endDate && count < 100`. -/
def weekStarts : Nat → Int → Int → List Int
  | 0, _, _ => []
  | fuel + 1, current, endDate =>
    if current ≤ endDate then current :: weekStarts fuel (current + 7) endDate
    else []

/-- Embeds the `calendarRows` computation of `CalendarGrid`
(src/src/components/calendar/CalendarGrid.tsx).  The `Set.has` tests are
the membership functions `availableDates` / `availableWeeks`; the
optional props `currentDate` / `currentWeek` compare with `===`
(`undefined` compares unequal). -/
def calendarRows (viewDate : Int) (availableDates availableWeeks : String → Bool)
    (currentDate currentWeek : Option String) : List WeekRow :=
  let year := yearOfDay viewDate
  let month := monthOf viewDate
  let firstDayOfMonth := daysFromCivil year month 1
  let startDayOfWeek := if weekday firstDayOfMonth = 0 then 7 else weekday firstDayOfMonth
  let startDate := firstDayOfMonth - (startDayOfWeek - 1)
  let lastDayOfMonth := daysFromCivil year (month + 1) 1 - 1
  let endDayOfWeek := if weekday lastDayOfMonth = 0 then 7 else weekday lastDayOfMonth
  let endDate := lastDayOfMonth + (7 - endDayOfWeek)
  (weekStarts 100 startDate endDate).map (fun current =>
    let weekYear := getISOYear current
    let weekNumber := getISOWeek current
    let weekString := formatWeekString weekYear weekNumber
    { weekNumber := weekNumber
      weekYear := weekYear
      weekString := weekString
      isWeekAvailable := availableWeeks weekString
      isWeekSelected := currentWeek == some weekString
      days := (List.range 7).map (fun i =>
        let dateString := formatDate (current + i)
        { day := current + i
          date := dayOf (current + i)
          dateString := dateString
          isCurrentMonth := monthOf (current + i) == month
          isAvailable := availableDates dateString
          isSelected := currentDate == some dateString }) })

/-- The four picker modes of the `UnifiedCalendar` component. -/
inductive CalendarMode
  | calendar
  | weekPicker
  | monthPicker
  | yearPicker
deriving DecidableEq

/-- The navigation state owned by `UnifiedCalendar`: `viewDate`,
`mode` and `yearPickerStart`. -/
structure ViewState where
  viewDate : Int
  mode : CalendarMode
  yearPickerStart : Int
deriving DecidableEq

/-- Embeds `newDate.setDate(1)`. -/
def setDate1 (v : Int) : Int := daysFromCivil (yearOfDay v) (monthOf v) 1

/-- Embeds `newDate.setMonth(mi)` (month index normalized into adjacent
years, day-of-month kept and normalized). -/
def setMonthTo (v mi : Int) : Int := daysFromCivil (yearOfDay v) mi (dayOf v)

/-- Embeds `newDate.setFullYear(y)` (month and day-of-month kept and
normalized). -/
def setFullYearTo (v y : Int) : Int := daysFromCivil y (monthOf v) (dayOf v)

/-- Embeds `handlePrev` of `UnifiedCalendar`: year-picker pages by -12;
calendar steps one month back after forcing day 1; the week and month
pickers step one year back. -/
def handlePrev (s : ViewState) : ViewState :=
  match s.mode with
  | .yearPicker => { s with yearPickerStart := s.yearPickerStart - 12 }
  | .calendar =>
    { s with viewDate := setMonthTo (setDate1 s.viewDate) (monthOf (setDate1 s.viewDate) - 1) }
  | _ => { s with viewDate := setFullYearTo s.viewDate (yearOfDay s.viewDate - 1) }

/-- Embeds `handleNext` of `UnifiedCalendar`. -/
def handleNext (s : ViewState) : ViewState :=
  match s.mode with
  | .yearPicker => { s with yearPickerStart := s.yearPickerStart + 12 }
  | .calendar =>
    { s with viewDate := setMonthTo (setDate1 s.viewDate) (monthOf (setDate1 s.viewDate) + 1) }
  | _ => { s with viewDate := setFullYearTo s.viewDate (yearOfDay s.viewDate + 1) }

/-- Embeds `handleYearSelect`: set the year, go to the month picker. -/
def handleYearSelect (s : ViewState) (year : Int) : ViewState :=
  { s with viewDate := setFullYearTo s.viewDate year, mode := .monthPicker }

/-- Embeds `handleMonthSelect`: force day 1, set the month, go to the
calendar. -/
def handleMonthSelect (s : ViewState) (monthIndex : Int) : ViewState :=
  { s with viewDate := setMonthTo (setDate1 s.viewDate) monthIndex, mode := .calendar }

/-- Embeds the day button click of `CalendarGrid`:
`onClick={() => day.isAvailable && onDateSelect(day.dateString)}` — the
view state is untouched and the selection event fires only when the cell
is available. -/
def handleDayClick (s : ViewState) (c : DayCell) : ViewState × Option String :=
  (s, if c.isAvailable then some c.dateString else none)

/-- Embeds the week number button click of `CalendarGrid`:
`onClick={() => row.isWeekAvailable && onWeekSelect(row.weekString)}`. -/
def handleWeekClick (s : ViewState) (r : WeekRow) : ViewState × Option String :=
  (s, if r.isWeekAvailable then some r.weekString else none)

section IsoLemmas

/-- January day numbers: `Date.UTC(y, 0, x)` is `jan1 y + (x - 1)`. -/
theorem daysFromCivil_jan (y x : Int) : daysFromCivil y 0 x = jan1 y + (x - 1) := by
  unfold daysFromCivil monthOffset monthOffsetL
  norm_num

theorem dayNum_bounds (n : Int) : 1 ≤ dayNum n ∧ dayNum n ≤ 7 := by
  unfold dayNum weekday
  split_ifs <;> omega

theorem dayNum_mod (n : Int) : (n + 4) % 7 = dayNum n % 7 := by
  unfold dayNum weekday
  split_ifs <;> omega

end IsoLemmas

/-- C10: for every year `y` and every integer week number `w` — also
`w < 1` and `w > weeksInYear(y)` — `getDateFromWeek y w` is exactly
`getDateFromWeek y 1` shifted by `7 * (w - 1)` days and always falls on
a Monday: out-of-range weeks wrap silently onto Mondays of adjacent
years instead of failing or clamping. -/
theorem getDateFromWeek_linear_monday (y w : Int) :
    getDateFromWeek y w = getDateFromWeek y 1 + 7 * (w - 1) ∧
      weekday (getDateFromWeek y w) = 1 := by
  unfold getDateFromWeek
  rw [daysFromCivil_jan, daysFromCivil_jan]
  unfold weekday
  dsimp only
  split_ifs <;> constructor <;> omega

/-- C9: ISO week and ISO year at the year boundaries 2024-01-01
(a Monday: week 1 of 2024) and 2023-01-01 (a Sunday: week 52 of the ISO
year 2022). -/
theorem iso_year_boundary_values :
    getISOWeek (daysFromCivil 2024 0 1) = 1 ∧
      getISOYear (daysFromCivil 2024 0 1) = 2024 ∧
      getISOYear (daysFromCivil 2023 0 1) = 2022 ∧
      getISOWeek (daysFromCivil 2023 0 1) = 52 := by
  decide

/-- C2: the data-model invariant `getISOWeek d ≤ getWeeksInYear (getISOYear d)`
fails on the code: December 30, 2004 lies in ISO week 53 of ISO year
2004, but `getWeeksInYear 2004` answers 52 — its leap-year branch tests
December 31 falling on a Wednesday where the 53-week rule needs a
Friday (the "Wednesday in leap year" of the comment is a January 1
condition). -/
theorem isoWeek_le_weeksInYear_fails :
    getISOYear (daysFromCivil 2004 11 30) = 2004 ∧
      getISOWeek (daysFromCivil 2004 11 30) = 53 ∧
      getWeeksInYear 2004 = 52 ∧
      ¬(getISOWeek (daysFromCivil 2004 11 30) ≤
          getWeeksInYear (getISOYear (daysFromCivil 2004 11 30))) := by
  decide

/-- C3 counterexample: on a pattern mismatch `parseWeekString` does not
return the ISO week identifier `(isoYearOf today, isoWeekOf today)`:
with today = 2023-01-01 it returns `(2023, 52)` (calendar year 2023 with
ISO week 52), while the ISO year of that date is 2022. -/
theorem parseWeekString_fallback_not_iso_year :
    parseWeekPattern "x" = none ∧
      parseWeekString "x" (daysFromCivil 2023 0 1) ≠
        (getISOYear (daysFromCivil 2023 0 1), getISOWeek (daysFromCivil 2023 0 1)) := by
  decide

/-- C3 (amended): for every string failing the `^\d{4}-W\d{2}$` pattern,
`parseWeekString` falls back to the pair of today's calendar year
(`today.getFullYear()`) — not the ISO week-numbering year — and today's
ISO week number, and never signals an error. -/
theorem parseWeekString_fallback (s : String) (today : Int)
    (h : parseWeekPattern s = none) :
    parseWeekString s today = (yearOfDay today, getISOWeek today) := by
  unfold parseWeekString
  rw [h]

/-- Witness for the C3 amended theorem at a concrete malformed string. -/
theorem parseWeekString_fallback_witness :
    parseWeekPattern "2024-05" = none ∧
      parseWeekString "2024-05" 0 = (yearOfDay 0, getISOWeek 0) :=
  ⟨by decide, parseWeekString_fallback "2024-05" 0 (by decide)⟩

/-- The inverse conversion applied to the ISO identifier of `d` lands on
the first day of the Monday-to-Sunday week of `d`. -/
theorem getDateFromWeek_iso_eq_monday (d : Int) :
    getDateFromWeek (getISOYear d) (getISOWeek d) = d + 1 - dayNum d := by
  have hw4 : weekday (d + 4 - dayNum d) = 4 := by
    unfold dayNum weekday
    split_ifs <;> omega
  obtain ⟨hb1, hb2⟩ := yearOfDay_bracket (d + 4 - dayNum d)
  have hstep := jan1_succ (yearOfDay (d + 4 - dayNum d))
  have hLb := leapDays_bounds (yearOfDay (d + 4 - dayNum d))
  unfold getISOWeek getISOYear getDateFromWeek
  rw [daysFromCivil_jan]
  unfold weekday at hw4 ⊢
  dsimp only
  split_ifs <;> omega

/-- C1: for every date `d`, `getDateFromWeek (getISOYear d) (getISOWeek d)`
is exactly the unique Monday `m` with `m ≤ d ≤ m + 6`, i.e. the Monday
of the Monday-to-Sunday week containing `d`. -/
theorem getDateFromWeek_iso_is_week_monday (d m : Int) :
    (weekday m = 1 ∧ m ≤ d ∧ d ≤ m + 6) ↔
      m = getDateFromWeek (getISOYear d) (getISOWeek d) := by
  rw [getDateFromWeek_iso_eq_monday]
  have h1 := dayNum_bounds d
  have h2 := dayNum_mod d
  unfold weekday
  constructor
  · rintro ⟨ha, hb, hc⟩
    omega
  · intro h
    refine ⟨?_, ?_, ?_⟩ <;> omega

section StateMachineLemmas

/-- `setDate(1)` keeps year and month and resets the day of month. -/
theorem setDate1_spec (v : Int) :
    yearOfDay (setDate1 v) = yearOfDay v ∧ monthOf (setDate1 v) = monthOf v ∧
      dayOf (setDate1 v) = 1 := by
  obtain ⟨hm0, hm1, -, -⟩ := monthOf_sandwich v
  have hml := monthLen_bounds (yearOfDay v) (monthOf v) hm0 hm1
  unfold setDate1
  exact civil_inverse (yearOfDay v) (monthOf v) 1 hm0 hm1 (by omega) (by omega)

/-- Month-index normalization of the civil constructor. -/
theorem daysFromCivil_norm (y mi : Int) (d : Int) :
    daysFromCivil y mi d = daysFromCivil (y + mi / 12) (mi % 12) d := by
  have e1 : (mi % 12) / 12 = 0 := by omega
  have e2 : (mi % 12) % 12 = mi % 12 := by omega
  unfold daysFromCivil
  rw [e1, e2, add_zero]

/-- Building the first of month `mi` of year `y` (any integer month
index) shifts the linearized month count `12 * year + month` to exactly
`12 * y + mi`, with day of month 1. -/
theorem civil_month_linear (y mi : Int) :
    12 * yearOfDay (daysFromCivil y mi 1) + monthOf (daysFromCivil y mi 1) =
      12 * y + mi ∧ dayOf (daysFromCivil y mi 1) = 1 := by
  rw [daysFromCivil_norm]
  have hr0 : 0 ≤ mi % 12 := by omega
  have hr1 : mi % 12 ≤ 11 := by omega
  have hml := monthLen_bounds (y + mi / 12) (mi % 12) hr0 hr1
  obtain ⟨hy, hm, hd⟩ :=
    civil_inverse (y + mi / 12) (mi % 12) 1 hr0 hr1 (by omega) (by omega)
  rw [hy, hm, hd]
  omega

/-- `setFullYear(y)` always lands in year `y`: the carried day of month
(at most 31) can overflow a short month but never the year. -/
theorem yearOfDay_setFullYearTo (v y : Int) : yearOfDay (setFullYearTo v y) = y := by
  obtain ⟨hm0, hm1, -, -⟩ := monthOf_sandwich v
  obtain ⟨hd1, hd31⟩ := dayOf_bounds v
  have hdiv : monthOf v / 12 = 0 := by omega
  have hmod : monthOf v % 12 = monthOf v := by omega
  have hoff0 := monthOffset_nonneg y (monthOf v)
  have hoff11 : monthOffset y 11 = 334 + leapDays y := by
    unfold monthOffset monthOffsetL
    norm_num
    omega
  have hmono := monthOffset_mono y (show monthOf v ≤ 11 from hm1)
  have hLb := leapDays_bounds y
  unfold setFullYearTo
  apply yearOfDay_eq_of_bracket
  · unfold daysFromCivil
    rw [hdiv, hmod, add_zero]
    omega
  · unfold daysFromCivil
    rw [hdiv, hmod, add_zero, jan1_succ]
    omega

end StateMachineLemmas

/-- C5: the Prev/Next transitions are mode-dependent and touch nothing
else: the year picker pages `yearPickerStart` by ∓12 leaving `viewDate`
and `mode` alone; the calendar moves `viewDate` to the first day of the
previous/next month (linearized month count shifts by ∓1, day of month
becomes 1) leaving `yearPickerStart` and `mode` alone; the week and
month pickers shift `viewDate` by ∓1 year leaving `yearPickerStart` and
`mode` alone. -/
theorem prev_next_by_mode (v p : Int) :
    handlePrev ⟨v, .yearPicker, p⟩ = ⟨v, .yearPicker, p - 12⟩ ∧
    handleNext ⟨v, .yearPicker, p⟩ = ⟨v, .yearPicker, p + 12⟩ ∧
    (12 * yearOfDay (handlePrev ⟨v, .calendar, p⟩).viewDate +
        monthOf (handlePrev ⟨v, .calendar, p⟩).viewDate =
      12 * yearOfDay v + monthOf v - 1) ∧
    dayOf (handlePrev ⟨v, .calendar, p⟩).viewDate = 1 ∧
    (handlePrev ⟨v, .calendar, p⟩).mode = CalendarMode.calendar ∧
    (handlePrev ⟨v, .calendar, p⟩).yearPickerStart = p ∧
    (12 * yearOfDay (handleNext ⟨v, .calendar, p⟩).viewDate +
        monthOf (handleNext ⟨v, .calendar, p⟩).viewDate =
      12 * yearOfDay v + monthOf v + 1) ∧
    dayOf (handleNext ⟨v, .calendar, p⟩).viewDate = 1 ∧
    (handleNext ⟨v, .calendar, p⟩).mode = CalendarMode.calendar ∧
    (handleNext ⟨v, .calendar, p⟩).yearPickerStart = p ∧
    yearOfDay (handlePrev ⟨v, .weekPicker, p⟩).viewDate = yearOfDay v - 1 ∧
    (handlePrev ⟨v, .weekPicker, p⟩).mode = CalendarMode.weekPicker ∧
    (handlePrev ⟨v, .weekPicker, p⟩).yearPickerStart = p ∧
    yearOfDay (handleNext ⟨v, .weekPicker, p⟩).viewDate = yearOfDay v + 1 ∧
    (handleNext ⟨v, .weekPicker, p⟩).mode = CalendarMode.weekPicker ∧
    (handleNext ⟨v, .weekPicker, p⟩).yearPickerStart = p ∧
    yearOfDay (handlePrev ⟨v, .monthPicker, p⟩).viewDate = yearOfDay v - 1 ∧
    (handlePrev ⟨v, .monthPicker, p⟩).mode = CalendarMode.monthPicker ∧
    (handlePrev ⟨v, .monthPicker, p⟩).yearPickerStart = p ∧
    yearOfDay (handleNext ⟨v, .monthPicker, p⟩).viewDate = yearOfDay v + 1 ∧
    (handleNext ⟨v, .monthPicker, p⟩).mode = CalendarMode.monthPicker ∧
    (handleNext ⟨v, .monthPicker, p⟩).yearPickerStart = p := by
  obtain ⟨hy1, hm1, hd1⟩ := setDate1_spec v
  have hprevView : (handlePrev ⟨v, .calendar, p⟩).viewDate =
      setMonthTo (setDate1 v) (monthOf (setDate1 v) - 1) := rfl
  have hnextView : (handleNext ⟨v, .calendar, p⟩).viewDate =
      setMonthTo (setDate1 v) (monthOf (setDate1 v) + 1) := rfl
  have hprevEq : setMonthTo (setDate1 v) (monthOf (setDate1 v) - 1) =
      daysFromCivil (yearOfDay v) (monthOf v - 1) 1 := by
    unfold setMonthTo
    rw [hy1, hm1, hd1]
  have hnextEq : setMonthTo (setDate1 v) (monthOf (setDate1 v) + 1) =
      daysFromCivil (yearOfDay v) (monthOf v + 1) 1 := by
    unfold setMonthTo
    rw [hy1, hm1, hd1]
  obtain ⟨hp1, hp2⟩ := civil_month_linear (yearOfDay v) (monthOf v - 1)
  obtain ⟨hn1, hn2⟩ := civil_month_linear (yearOfDay v) (monthOf v + 1)
  refine ⟨rfl, rfl, ?_, ?_, rfl, rfl, ?_, ?_, rfl, rfl, ?_, rfl, rfl, ?_, rfl, rfl,
    ?_, rfl, rfl, ?_, rfl, rfl⟩
  · rw [hprevView, hprevEq]; omega
  · rw [hprevView, hprevEq, hp2]
  · rw [hnextView, hnextEq]; omega
  · rw [hnextView, hnextEq, hn2]
  · exact yearOfDay_setFullYearTo v (yearOfDay v - 1)
  · exact yearOfDay_setFullYearTo v (yearOfDay v + 1)
  · exact yearOfDay_setFullYearTo v (yearOfDay v - 1)
  · exact yearOfDay_setFullYearTo v (yearOfDay v + 1)

/-- C6: from the year picker, selecting year `Y` sets the view date
year to `Y` and moves to the month picker; selecting month index `mi`
there sets the month to `mi` with the day of month reset to 1 (no
overflow into a following month) and moves to the calendar. -/
theorem year_then_month_select (v p Y mi : Int) (h0 : 0 ≤ mi) (h1 : mi ≤ 11) :
    (handleYearSelect ⟨v, .yearPicker, p⟩ Y).mode = CalendarMode.monthPicker ∧
    yearOfDay (handleYearSelect ⟨v, .yearPicker, p⟩ Y).viewDate = Y ∧
    (handleMonthSelect (handleYearSelect ⟨v, .yearPicker, p⟩ Y) mi).mode =
      CalendarMode.calendar ∧
    monthOf (handleMonthSelect (handleYearSelect ⟨v, .yearPicker, p⟩ Y) mi).viewDate = mi ∧
    dayOf (handleMonthSelect (handleYearSelect ⟨v, .yearPicker, p⟩ Y) mi).viewDate = 1 ∧
    yearOfDay (handleMonthSelect (handleYearSelect ⟨v, .yearPicker, p⟩ Y) mi).viewDate = Y := by
  have hs1 : (handleYearSelect ⟨v, .yearPicker, p⟩ Y).viewDate = setFullYearTo v Y := rfl
  have hY : yearOfDay (setFullYearTo v Y) = Y := yearOfDay_setFullYearTo v Y
  have hview : (handleMonthSelect (handleYearSelect ⟨v, .yearPicker, p⟩ Y) mi).viewDate =
      setMonthTo (setDate1 (setFullYearTo v Y)) mi := rfl
  obtain ⟨ha, hb, hc⟩ := setDate1_spec (setFullYearTo v Y)
  have heq : setMonthTo (setDate1 (setFullYearTo v Y)) mi = daysFromCivil Y mi 1 := by
    unfold setMonthTo
    rw [ha, hc, hY]
  have hml := monthLen_bounds Y mi h0 h1
  obtain ⟨iy, im, id2⟩ := civil_inverse Y mi 1 h0 h1 (by omega) (by omega)
  refine ⟨rfl, ?_, rfl, ?_, ?_, ?_⟩
  · rw [hs1]; exact hY
  · rw [hview, heq]; exact im
  · rw [hview, heq]; exact id2
  · rw [hview, heq]; exact iy

/-- Witness for C6: from the year picker select 2026, then April
(index 3). -/
theorem year_then_month_select_witness :
    monthOf (handleMonthSelect (handleYearSelect ⟨0, .yearPicker, 0⟩ 2026) 3).viewDate = 3 ∧
    dayOf (handleMonthSelect (handleYearSelect ⟨0, .yearPicker, 0⟩ 2026) 3).viewDate = 1 ∧
    yearOfDay (handleMonthSelect (handleYearSelect ⟨0, .yearPicker, 0⟩ 2026) 3).viewDate = 2026 := by
  obtain ⟨-, -, -, hm, hd, hy⟩ := year_then_month_select 0 0 2026 3 (by decide) (by decide)
  exact ⟨hm, hd, hy⟩

theorem isDigit_digitChar (d : Nat) (h : d < 10) :
    (Char.ofNat (48 + d)).isDigit = true := by
  interval_cases d <;> decide

theorem charVal_digitChar (d : Nat) (h : d < 10) :
    charVal (Char.ofNat (48 + d)) = (d : Int) := by
  interval_cases d <;> decide

theorem natToStrAux_one (fuel n : Nat) (acc : List Char) (h1 : n ≤ 9)
    (hf : 1 ≤ fuel) : natToStrAux fuel n acc = Char.ofNat (48 + n) :: acc := by
  obtain ⟨f, rfl⟩ : ∃ f, fuel = f + 1 := ⟨fuel - 1, by omega⟩
  simp only [natToStrAux]
  rw [if_pos (by omega)]

theorem natToStrAux_two (fuel n : Nat) (acc : List Char) (h1 : 10 ≤ n)
    (h2 : n ≤ 99) (hf : 2 ≤ fuel) :
    natToStrAux fuel n acc =
      Char.ofNat (48 + n / 10) :: Char.ofNat (48 + n % 10) :: acc := by
  obtain ⟨f, rfl⟩ : ∃ f, fuel = f + 1 := ⟨fuel - 1, by omega⟩
  simp only [natToStrAux]
  rw [if_neg (by omega), natToStrAux_one f (n / 10) _ (by omega) (by omega)]

theorem natToStrAux_three (fuel n : Nat) (acc : List Char) (h1 : 100 ≤ n)
    (h2 : n ≤ 999) (hf : 3 ≤ fuel) :
    natToStrAux fuel n acc =
      Char.ofNat (48 + n / 100) :: Char.ofNat (48 + n / 10 % 10) ::
        Char.ofNat (48 + n % 10) :: acc := by
  obtain ⟨f, rfl⟩ : ∃ f, fuel = f + 1 := ⟨fuel - 1, by omega⟩
  simp only [natToStrAux]
  rw [if_neg (by omega), natToStrAux_two f (n / 10) _ (by omega) (by omega) (by omega)]
  have e1 : n / 10 / 10 = n / 100 := by omega
  have e2 : n / 10 % 10 = n / 10 % 10 := rfl
  rw [e1]

theorem natToStrAux_four (fuel n : Nat) (acc : List Char) (h1 : 1000 ≤ n)
    (h2 : n ≤ 9999) (hf : 4 ≤ fuel) :
    natToStrAux fuel n acc =
      Char.ofNat (48 + n / 1000) :: Char.ofNat (48 + n / 100 % 10) ::
        Char.ofNat (48 + n / 10 % 10) :: Char.ofNat (48 + n % 10) :: acc := by
  obtain ⟨f, rfl⟩ : ∃ f, fuel = f + 1 := ⟨fuel - 1, by omega⟩
  simp only [natToStrAux]
  rw [if_neg (by omega), natToStrAux_three f (n / 10) _ (by omega) (by omega) (by omega)]
  have e1 : n / 10 / 100 = n / 1000 := by omega
  have e2 : n / 10 / 10 % 10 = n / 100 % 10 := by omega
  rw [e1, e2]

theorem padTwo_one (c : Char) : padTwo (String.mk [c]) = String.mk ['0', c] := by
  have h : (String.mk [c]).length < 2 := by
    show (1:Nat) < 2
    omega
  unfold padTwo
  rw [if_pos h]
  rfl

theorem padTwo_two (c d : Char) : padTwo (String.mk [c, d]) = String.mk [c, d] := by
  have h : ¬((String.mk [c, d]).length < 2) := by
    show ¬((2:Nat) < 2)
    omega
  unfold padTwo
  rw [if_neg h]

theorem string_append_data (a b : String) : (a ++ b).data = a.data ++ b.data := by
  cases a
  cases b
  rfl

theorem parseWeekPattern_eight (a b c d e f g h : Char) :
    parseWeekPattern (String.mk [a, b, c, d, e, f, g, h]) =
      if a.isDigit && b.isDigit && c.isDigit && d.isDigit &&
          e == '-' && f == 'W' && g.isDigit && h.isDigit then
        some (1000 * charVal a + 100 * charVal b + 10 * charVal c + charVal d,
          10 * charVal g + charVal h)
      else none := rfl

/-- The week count is always 52 or 53. -/
theorem getWeeksInYear_cases (y : Int) :
    getWeeksInYear y = 52 ∨ getWeeksInYear y = 53 := by
  unfold getWeeksInYear
  dsimp only
  split_ifs <;> simp

/-- C8 (amended): for every four-digit year `1000 <= y <= 9999` and week
`1 <= w <= getWeeksInYear y`, parsing the formatted week string gives
back exactly `(y, w)` (for any ambient date).  Outside the four-digit
year range the format does not match the parse pattern, see the
counterexample. -/
theorem formatWeek_parseWeek_roundtrip (y w today : Int)
    (hy0 : 1000 ≤ y) (hy1 : y ≤ 9999) (hw0 : 1 ≤ w)
    (hw1 : w ≤ getWeeksInYear y) :
    parseWeekString (formatWeekString y w) today = (y, w) := by
  have hw53 : w ≤ 53 := by
    rcases getWeeksInYear_cases y with h | h <;> omega
  have hyn : intToStr y = natToStr y.toNat := by
    unfold intToStr
    rw [if_neg (by omega)]
  have hwn : intToStr w = natToStr w.toNat := by
    unfold intToStr
    rw [if_neg (by omega)]
  have hydata : natToStr y.toNat = String.mk
      [Char.ofNat (48 + y.toNat / 1000), Char.ofNat (48 + y.toNat / 100 % 10),
        Char.ofNat (48 + y.toNat / 10 % 10), Char.ofNat (48 + y.toNat % 10)] := by
    unfold natToStr
    rw [natToStrAux_four (y.toNat + 1) y.toNat [] (by omega) (by omega) (by omega)]
  -- the week part: one digit padded, or two digits
  have hwdata : ∃ g h : Char, padTwo (intToStr w) = String.mk [g, h] ∧
      g.isDigit = true ∧ h.isDigit = true ∧ 10 * charVal g + charVal h = w := by
    rcases le_or_lt w 9 with hw9 | hw10
    · refine ⟨'0', Char.ofNat (48 + w.toNat), ?_, by decide, ?_, ?_⟩
      · rw [hwn]
        unfold natToStr
        rw [natToStrAux_one (w.toNat + 1) w.toNat [] (by omega) (by omega)]
        exact padTwo_one _
      · exact isDigit_digitChar w.toNat (by omega)
      · have := charVal_digitChar w.toNat (by omega)
        have h0 : charVal '0' = 0 := by decide
        rw [h0, this]
        omega
    · refine ⟨Char.ofNat (48 + w.toNat / 10), Char.ofNat (48 + w.toNat % 10), ?_, ?_, ?_, ?_⟩
      · rw [hwn]
        unfold natToStr
        rw [natToStrAux_two (w.toNat + 1) w.toNat [] (by omega) (by omega) (by omega)]
        exact padTwo_two _ _
      · exact isDigit_digitChar (w.toNat / 10) (by omega)
      · exact isDigit_digitChar (w.toNat % 10) (by omega)
      · rw [charVal_digitChar (w.toNat / 10) (by omega),
          charVal_digitChar (w.toNat % 10) (by omega)]
        omega
  obtain ⟨g, h, hpad, hgD, hhD, hval⟩ := hwdata
  have hs : formatWeekString y w = String.mk
      [Char.ofNat (48 + y.toNat / 1000), Char.ofNat (48 + y.toNat / 100 % 10),
        Char.ofNat (48 + y.toNat / 10 % 10), Char.ofNat (48 + y.toNat % 10),
        '-', 'W', g, h] := by
    unfold formatWeekString
    rw [hyn, hydata, hpad]
    rfl
  have hpat : parseWeekPattern (formatWeekString y w) = some (y, w) := by
    rw [hs, parseWeekPattern_eight]
    rw [if_pos]
    · rw [charVal_digitChar (y.toNat / 1000) (by omega),
        charVal_digitChar (y.toNat / 100 % 10) (by omega),
        charVal_digitChar (y.toNat / 10 % 10) (by omega),
        charVal_digitChar (y.toNat % 10) (by omega)]
      have : (1000 : Int) * (y.toNat / 1000 : Nat) + 100 * (y.toNat / 100 % 10 : Nat) +
          10 * (y.toNat / 10 % 10 : Nat) + (y.toNat % 10 : Nat) = y := by
        omega
      rw [this, hval]
    · rw [isDigit_digitChar (y.toNat / 1000) (by omega),
        isDigit_digitChar (y.toNat / 100 % 10) (by omega),
        isDigit_digitChar (y.toNat / 10 % 10) (by omega),
        isDigit_digitChar (y.toNat % 10) (by omega), hgD, hhD]
      decide
  unfold parseWeekString
  rw [hpat]

/-- C8 counterexample: the round trip fails for a year with fewer than
four decimal digits: `formatWeekString 123 1 = "123-W01"` misses the
`^\\d{4}-W\\d{2}$` pattern, so parsing falls back to the current week
instead of returning `(123, 1)`. -/
theorem formatWeek_parseWeek_roundtrip_fails_small_year :
    (1 ≤ (1:Int) ∧ (1:Int) ≤ getWeeksInYear 123) ∧
      parseWeekString (formatWeekString 123 1) 0 ≠ (123, 1) := by
  decide

/-- Witness for C8 at `y = 2024`, `w = 5`. -/
theorem formatWeek_parseWeek_roundtrip_witness :
    ((1000:Int) ≤ 2024 ∧ (2024:Int) ≤ 9999 ∧ (1:Int) ≤ 5 ∧
        (5:Int) ≤ getWeeksInYear 2024) ∧
      parseWeekString (formatWeekString 2024 5) 0 = (2024, 5) :=
  ⟨⟨by decide, by decide, by decide, by decide⟩,
    formatWeek_parseWeek_roundtrip 2024 5 0 (by decide) (by decide) (by decide)
      (by decide)⟩

theorem monthOffset_zero (y : Int) : monthOffset y 0 = 0 := by
  unfold monthOffset monthOffsetL
  norm_num

theorem monthOffset_eleven (y : Int) : monthOffset y 11 = 334 + leapDays y := by
  unfold monthOffset monthOffsetL
  norm_num
  omega

theorem monthOffset_twelve (y : Int) : monthOffset y 12 = 365 + leapDays y := by
  unfold monthOffset monthOffsetL
  norm_num
  omega

theorem daysFromCivil_month_start (y m : Int) (h0 : 0 ≤ m) (h1 : m ≤ 12) :
    daysFromCivil y m 1 = jan1 y + monthOffset y m := by
  rcases eq_or_lt_of_le h1 with h12 | hlt
  · subst h12
    have e1 : (12:Int) / 12 = 1 := by norm_num
    have e2 : (12:Int) % 12 = 0 := by norm_num
    unfold daysFromCivil
    rw [e1, e2, monthOffset_zero, monthOffset_twelve, jan1_succ]
    omega
  · have e1 : m / 12 = 0 := by omega
    have e2 : m % 12 = m := by omega
    unfold daysFromCivil
    rw [e1, e2, add_zero]
    omega

theorem daysFromCivil_succ_month (y m : Int) (h0 : 0 ≤ m) (h1 : m ≤ 11) :
    daysFromCivil y (m + 1) 1 = daysFromCivil y m 1 + monthLen y m := by
  rw [daysFromCivil_month_start y (m + 1) (by omega) (by omega),
    daysFromCivil_month_start y m (by omega) (by omega)]
  unfold monthLen
  omega

theorem daysFromCivil_day_shift (y m d : Int) :
    daysFromCivil y m d = daysFromCivil y m 1 + (d - 1) := by
  unfold daysFromCivil
  omega

/-- A day inside the month keeps the month index, with the expected day
of month and year. -/
theorem monthOf_in_month (y m t : Int) (h0 : 0 ≤ m) (h1 : m ≤ 11)
    (ht0 : 0 ≤ t) (ht : t < monthLen y m) :
    monthOf (daysFromCivil y m 1 + t) = m ∧
      dayOf (daysFromCivil y m 1 + t) = t + 1 ∧
      yearOfDay (daysFromCivil y m 1 + t) = y := by
  have h4 := daysFromCivil_day_shift y m (t + 1)
  have heq : daysFromCivil y m 1 + t = daysFromCivil y m (t + 1) := by omega
  rw [heq]
  obtain ⟨a, b, c⟩ := civil_inverse y m (t + 1) h0 h1 (by omega) (by omega)
  exact ⟨b, c, a⟩

/-- The six days before the first of a month lie in the preceding
month. -/
theorem monthOf_before_first (y m u : Int) (h0 : 0 ≤ m) (h1 : m ≤ 11)
    (hu1 : 1 ≤ u) (hu6 : u ≤ 6) :
    monthOf (daysFromCivil y m 1 - u) = (if m = 0 then 11 else m - 1) := by
  rcases eq_or_ne m 0 with rfl | hm0
  · rw [if_pos rfl]
    have hlen : monthLen (y - 1) 11 = 31 := by
      unfold monthLen
      rw [show (11:Int) + 1 = 12 by norm_num, monthOffset_twelve, monthOffset_eleven]
      omega
    have hstep := jan1_succ (y - 1)
    rw [show y - 1 + 1 = y by ring] at hstep
    have h1m := daysFromCivil_month_start y 0 (by omega) (by omega)
    rw [monthOffset_zero] at h1m
    have h2 := daysFromCivil_month_start (y - 1) 12 (by omega) (by omega)
    rw [monthOffset_twelve] at h2
    have h3 := daysFromCivil_succ_month (y - 1) 11 (by omega) (by omega)
    rw [show (11:Int) + 1 = 12 by norm_num] at h3
    have h4 := daysFromCivil_day_shift (y - 1) 11 (32 - u)
    have heq : daysFromCivil y 0 1 - u = daysFromCivil (y - 1) 11 (32 - u) := by
      omega
    rw [heq]
    exact (civil_inverse (y - 1) 11 (32 - u) (by omega) (by omega) (by omega)
      (by omega)).2.1
  · rw [if_neg hm0]
    have hml := monthLen_bounds y (m - 1) (by omega) (by omega)
    have hsucc := daysFromCivil_succ_month y (m - 1) (by omega) (by omega)
    rw [show m - 1 + 1 = m by ring] at hsucc
    have hshift := daysFromCivil_day_shift y (m - 1) (monthLen y (m - 1) + 1 - u)
    have heq : daysFromCivil y m 1 - u =
        daysFromCivil y (m - 1) (monthLen y (m - 1) + 1 - u) := by
      omega
    rw [heq]
    exact (civil_inverse y (m - 1) (monthLen y (m - 1) + 1 - u) (by omega)
      (by omega) (by omega) (by omega)).2.1

/-- The six days after the last of a month lie in the following month. -/
theorem monthOf_after_last (y m u : Int) (h0 : 0 ≤ m) (h1 : m ≤ 11)
    (hu1 : 1 ≤ u) (hu6 : u ≤ 6) :
    monthOf (daysFromCivil y (m + 1) 1 + (u - 1)) = (if m = 11 then 0 else m + 1) := by
  rcases eq_or_ne m 11 with rfl | hm11
  · rw [if_pos rfl]
    have h2 := daysFromCivil_month_start y 12 (by omega) (by omega)
    rw [monthOffset_twelve] at h2
    have h5 := daysFromCivil_month_start (y + 1) 0 (by omega) (by omega)
    rw [monthOffset_zero] at h5
    have h4 := daysFromCivil_day_shift (y + 1) 0 u
    have hstep := jan1_succ y
    have hlen0 : monthLen (y + 1) 0 = 31 := by
      unfold monthLen
      rw [monthOffset_zero]
      unfold monthOffset monthOffsetL
      norm_num
    have heq : daysFromCivil y (11 + 1) 1 + (u - 1) = daysFromCivil (y + 1) 0 u := by
      rw [show (11:Int) + 1 = 12 by norm_num]
      omega
    rw [heq]
    exact (civil_inverse (y + 1) 0 u (by omega) (by omega) (by omega) (by omega)).2.1
  · rw [if_neg hm11]
    have hml := monthLen_bounds y (m + 1) (by omega) (by omega)
    have h4 := daysFromCivil_day_shift y (m + 1) u
    have heq : daysFromCivil y (m + 1) 1 + (u - 1) = daysFromCivil y (m + 1) u := by
      omega
    rw [heq]
    exact (civil_inverse y (m + 1) u (by omega) (by omega) (by omega) (by omega)).2.1

/-- The chunking loop produces exactly `k` Monday row starts when the
span is `7 * k` days and the fuel suffices. -/
theorem weekStarts_spec : ∀ (k fuel : Nat) (cur endD : Int),
    endD + 1 - cur = 7 * k → k ≤ fuel →
    weekStarts fuel cur endD = (List.range k).map (fun j : Nat => cur + 7 * (j : Int)) := by
  intro k
  induction k with
  | zero =>
    intro fuel cur endD h hk
    match fuel with
    | 0 => rfl
    | f + 1 =>
      simp only [weekStarts]
      rw [if_neg (by omega), List.range_zero, List.map_nil]
  | succ k ih =>
    intro fuel cur endD h hk
    obtain ⟨f, rfl⟩ : ∃ f, fuel = f + 1 := ⟨fuel - 1, by omega⟩
    simp only [weekStarts]
    rw [if_pos (by omega), ih f (cur + 7) endD (by push_cast at h ⊢; omega) (by omega),
      List.range_succ_eq_map]
    simp only [List.map_cons, List.map_map]
    congr 1
    · omega
    · apply List.map_congr_left
      intro j hj
      simp only [Function.comp_apply, Nat.succ_eq_add_one]
      push_cast
      ring

/-- Flattening the per-row 7-day chunks yields the contiguous day
range. -/
theorem chunks_flatten (g : Int → DayCell) : ∀ (k : Nat) (S : Int),
    ((List.range k).map (fun j : Nat =>
        (List.range 7).map (fun i : Nat => g (S + 7 * (j : Int) + (i : Int))))).flatten =
      (List.range (7 * k)).map (fun i : Nat => g (S + (i : Int))) := by
  intro k
  induction k with
  | zero => intro S; rfl
  | succ k ih =>
    intro S
    rw [show List.range (k + 1) = List.range k ++ [k] from List.range_succ k,
      List.map_append, List.flatten_append,
      show 7 * (k + 1) = 7 * k + 7 by ring, List.range_add, List.map_append, ih S]
    simp only [List.map_cons, List.map_nil, List.flatten_cons, List.flatten_nil,
      List.append_nil, List.map_map]
    congr 1
    apply List.map_congr_left
    intro i hi
    simp only [Function.comp_apply]
    congr 1
    push_cast
    ring

/-- All day cells of the grid in row-major order. -/
def gridCells (viewDate : Int) (availableDates availableWeeks : String → Bool)
    (currentDate currentWeek : Option String) : List DayCell :=
  (calendarRows viewDate availableDates availableWeeks currentDate currentWeek).flatMap
    (fun r => r.days)

theorem calendarRows_eq (v : Int) (aD aW : String → Bool) (cD cW : Option String) :
    calendarRows v aD aW cD cW =
      (weekStarts 100
          (daysFromCivil (yearOfDay v) (monthOf v) 1 -
            ((if weekday (daysFromCivil (yearOfDay v) (monthOf v) 1) = 0 then 7
              else weekday (daysFromCivil (yearOfDay v) (monthOf v) 1)) - 1))
          ((daysFromCivil (yearOfDay v) (monthOf v + 1) 1 - 1) +
            (7 - (if weekday (daysFromCivil (yearOfDay v) (monthOf v + 1) 1 - 1) = 0 then 7
                  else weekday (daysFromCivil (yearOfDay v) (monthOf v + 1) 1 - 1))))).map
        (fun current =>
          { weekNumber := getISOWeek current
            weekYear := getISOYear current
            weekString := formatWeekString (getISOYear current) (getISOWeek current)
            isWeekAvailable := aW (formatWeekString (getISOYear current) (getISOWeek current))
            isWeekSelected := cW == some (formatWeekString (getISOYear current) (getISOWeek current))
            days := (List.range 7).map (fun i : Nat =>
              { day := current + i
                date := dayOf (current + i)
                dateString := formatDate (current + i)
                isCurrentMonth := monthOf (current + i) == monthOf v
                isAvailable := aD (formatDate (current + i))
                isSelected := cD == some (formatDate (current + i)) }) }) := rfl

theorem head?_map_range {α : Type} (f : Nat → α) (N : Nat) (h : 0 < N) :
    ((List.range N).map f).head? = some (f 0) := by
  obtain ⟨M, rfl⟩ : ∃ M, N = M + 1 := ⟨N - 1, by omega⟩
  rw [List.range_succ_eq_map]
  simp

theorem getLast?_map_range {α : Type} (f : Nat → α) (N : Nat) (h : 0 < N) :
    ((List.range N).map f).getLast? = some (f (N - 1)) := by
  obtain ⟨M, rfl⟩ : ∃ M, N = M + 1 := ⟨N - 1, by omega⟩
  rw [show List.range (M + 1) = List.range M ++ [M] from List.range_succ M,
    List.map_append]
  simp [List.getLast?_concat]

theorem filter_map_range_interval {α : Type} (p : α → Bool) (g : Nat → α)
    (a l b : Nat)
    (hfalse1 : ∀ i : Nat, i < a → p (g i) = false)
    (htrue : ∀ i : Nat, a ≤ i → i < a + l → p (g i) = true)
    (hfalse2 : ∀ i : Nat, a + l ≤ i → i < a + l + b → p (g i) = false) :
    ((List.range (a + l + b)).map g).filter p =
      (List.range l).map (fun i : Nat => g (a + i)) := by
  rw [List.range_add, List.range_add, List.map_append, List.map_append,
    List.filter_append, List.filter_append, List.map_map, List.map_map]
  have h1 : ((List.range a).map g).filter p = [] := by
    rw [List.filter_eq_nil_iff]
    intro c hc
    obtain ⟨i, hi, rfl⟩ := List.mem_map.mp hc
    rw [hfalse1 i (List.mem_range.mp hi)]
    simp
  have h2 : ((List.range l).map (g ∘ fun x => a + x)).filter p =
      (List.range l).map (g ∘ fun x => a + x) := by
    rw [List.filter_eq_self]
    intro c hc
    obtain ⟨i, hi, rfl⟩ := List.mem_map.mp hc
    exact htrue (a + i) (by omega) (by have := List.mem_range.mp hi; omega)
  have h3 : ((List.range b).map (g ∘ fun x => a + l + x)).filter p = [] := by
    rw [List.filter_eq_nil_iff]
    intro c hc
    obtain ⟨i, hi, rfl⟩ := List.mem_map.mp hc
    have := List.mem_range.mp hi
    simp only [Function.comp_apply]
    rw [hfalse2 (a + l + i) (by omega) (by omega)]
    simp
  rw [h1, h2, h3]
  simp

/-- Shape of a flattened Monday-aligned grid covering one month: Monday
start, Sunday end, and the in-month cells are exactly the month's days
in order. -/
theorem grid_flat_shape (m S E F len : Int) (k : Nat) (g : Int → DayCell)
    (hk7 : E + 1 - S = 7 * (k : Int)) (hk4 : 4 ≤ k)
    (hgday : ∀ d : Int, (g d).day = d)
    (hgmonth : ∀ d : Int, (g d).isCurrentMonth = (monthOf d == m))
    (ha : S ≤ F) (ha6 : F - S ≤ 6)
    (hb : F + len - 1 ≤ E) (hb6 : E - (F + len - 1) ≤ 6)
    (hlen28 : 28 ≤ len) (hlen31 : len ≤ 31)
    (hwS : weekday S = 1) (hwE : weekday E = 0)
    (hin : ∀ t : Int, 0 ≤ t → t < len → monthOf (F + t) = m)
    (hbefore : ∀ u : Int, 1 ≤ u → u ≤ 6 → monthOf (F - u) ≠ m)
    (hafter : ∀ u : Int, 1 ≤ u → u ≤ 6 → monthOf (F + len - 1 + u) ≠ m) :
    ((List.range (7 * k)).map (fun i : Nat => g (S + (i : Int)))).head?.map
        (fun c => weekday c.day) = some 1 ∧
    ((List.range (7 * k)).map (fun i : Nat => g (S + (i : Int)))).getLast?.map
        (fun c => weekday c.day) = some 0 ∧
    (((List.range (7 * k)).map (fun i : Nat => g (S + (i : Int)))).filter
        (fun c => c.isCurrentMonth)).map (fun c => c.day) =
      (List.range len.toNat).map (fun i : Nat => F + (i : Int)) ∧
    ∀ d : Int, F ≤ d → d ≤ F + len - 1 →
      ((((List.range (7 * k)).map (fun i : Nat => g (S + (i : Int)))).filter
        (fun c => c.isCurrentMonth)).map (fun c => c.day)).count d = 1 := by
  have hfil : ((List.range (7 * k)).map (fun i : Nat => g (S + (i : Int)))).filter
      (fun c => c.isCurrentMonth) =
      (List.range len.toNat).map
        (fun i : Nat => g (S + ((F - S).toNat + i : Nat))) := by
    rw [show 7 * k = (F - S).toNat + len.toNat + (E - (F + len - 1)).toNat by omega]
    apply filter_map_range_interval (fun c => c.isCurrentMonth)
      (fun i : Nat => g (S + (i : Int)))
    · intro i hi
      rw [hgmonth]
      have hu : S + (i : Int) = F - ((F - S) - i) := by omega
      rw [hu]
      exact beq_eq_false_iff_ne.mpr (hbefore ((F - S) - i) (by omega) (by omega))
    · intro i h1 h2
      rw [hgmonth]
      have hu : S + (i : Int) = F + ((i : Int) - (F - S)) := by omega
      rw [hu]
      exact beq_iff_eq.mpr (hin ((i : Int) - (F - S)) (by omega) (by omega))
    · intro i h1 h2
      rw [hgmonth]
      have hu : S + (i : Int) = F + len - 1 + ((S + i) - (F + len - 1)) := by omega
      rw [hu]
      exact beq_eq_false_iff_ne.mpr
        (hafter ((S + i) - (F + len - 1)) (by omega) (by omega))
  have hmapped : (((List.range (7 * k)).map (fun i : Nat => g (S + (i : Int)))).filter
      (fun c => c.isCurrentMonth)).map (fun c => c.day) =
      (List.range len.toNat).map (fun i : Nat => F + (i : Int)) := by
    rw [hfil, List.map_map]
    apply List.map_congr_left
    intro i hi
    simp only [Function.comp_apply]
    rw [hgday]
    push_cast
    omega
  refine ⟨?_, ?_, hmapped, ?_⟩
  · rw [head?_map_range _ _ (by omega)]
    simp only [Option.map_some']
    rw [hgday]
    have he : S + ((0 : Nat) : Int) = S := by omega
    rw [he, hwS]
  · rw [getLast?_map_range _ _ (by omega)]
    simp only [Option.map_some']
    rw [hgday]
    have he : S + ((7 * k - 1 : Nat) : Int) = E := by
      omega
    rw [he, hwE]
  · intro d hd1 hd2
    rw [hmapped]
    have hinj : Function.Injective (fun i : Nat => F + (i : Int)) := by
      intro x1 x2 hx
      simp only at hx
      omega
    have hd : d = F + ((d - F).toNat : Int) := by omega
    rw [hd, List.count_map_of_injective _ _ hinj]
    exact List.count_eq_one_of_mem (List.nodup_range _)
      (List.mem_range.mpr (by omega))

theorem gridCells_eq (v : Int) (aD aW : String → Bool) (cD cW : Option String) :
    gridCells v aD aW cD cW =
      (weekStarts 100
          (daysFromCivil (yearOfDay v) (monthOf v) 1 -
            ((if weekday (daysFromCivil (yearOfDay v) (monthOf v) 1) = 0 then 7
              else weekday (daysFromCivil (yearOfDay v) (monthOf v) 1)) - 1))
          ((daysFromCivil (yearOfDay v) (monthOf v + 1) 1 - 1) +
            (7 - (if weekday (daysFromCivil (yearOfDay v) (monthOf v + 1) 1 - 1) = 0 then 7
                  else weekday (daysFromCivil (yearOfDay v) (monthOf v + 1) 1 - 1))))).flatMap
        (fun current => (List.range 7).map (fun i : Nat =>
          ({ day := current + i
             date := dayOf (current + i)
             dateString := formatDate (current + i)
             isCurrentMonth := monthOf (current + i) == monthOf v
             isAvailable := aD (formatDate (current + i))
             isSelected := cD == some (formatDate (current + i)) } : DayCell))) := by
  unfold gridCells
  rw [calendarRows_eq, List.flatMap_map]

theorem weekStarts_flatMap (g : Int → DayCell) (k fuel : Nat) (S endD : Int)
    (h : endD + 1 - S = 7 * (k : Int)) (hk : k ≤ fuel) :
    (weekStarts fuel S endD).flatMap (fun current =>
        (List.range 7).map (fun i : Nat => g (current + (i : Int)))) =
      (List.range (7 * k)).map (fun i : Nat => g (S + (i : Int))) := by
  rw [weekStarts_spec k fuel S endD h hk, List.flatMap_map, List.flatMap_def,
    ← chunks_flatten g k S]

theorem month_grid_span (F last : Int) (h1 : 27 ≤ last - F) (h2 : last - F ≤ 30) :
    ∃ k : Nat, (last + (7 - (if weekday last = 0 then 7 else weekday last))) + 1 -
      (F - ((if weekday F = 0 then 7 else weekday F) - 1)) = 7 * (k : Int) ∧
      4 ≤ k ∧ k ≤ 6 := by
  refine ⟨((last + (7 - (if weekday last = 0 then 7 else weekday last))) + 1 -
    (F - ((if weekday F = 0 then 7 else weekday F) - 1))).toNat / 7, ?_, ?_, ?_⟩ <;>
  · have hwF : weekday F = (F + 4) % 7 := rfl
    have hwL : weekday last = (last + 4) % 7 := rfl
    split_ifs <;> omega

/-- C4: for every view date, the month grid has rows of exactly 7 day
cells; 4, 5 or 6 rows; its first cell falls on a Monday and its last on
a Sunday; and the cells marked in-month are, in order, exactly the days
of the displayed month (so each day of that month appears exactly
once). -/
theorem calendar_grid_shape (v : Int) (aD aW : String → Bool) (cD cW : Option String) :
    (∀ r ∈ calendarRows v aD aW cD cW, r.days.length = 7) ∧
    ((calendarRows v aD aW cD cW).length = 4 ∨ (calendarRows v aD aW cD cW).length = 5 ∨
      (calendarRows v aD aW cD cW).length = 6) ∧
    (gridCells v aD aW cD cW).head?.map (fun c => weekday c.day) = some 1 ∧
    (gridCells v aD aW cD cW).getLast?.map (fun c => weekday c.day) = some 0 ∧
    ((gridCells v aD aW cD cW).filter (fun c => c.isCurrentMonth)).map (fun c => c.day) =
      (List.range (monthLen (yearOfDay v) (monthOf v)).toNat).map
        (fun i : Nat => daysFromCivil (yearOfDay v) (monthOf v) 1 + (i : Int)) ∧
    ∀ d : Int, daysFromCivil (yearOfDay v) (monthOf v) 1 ≤ d →
      d ≤ daysFromCivil (yearOfDay v) (monthOf v) 1 +
        monthLen (yearOfDay v) (monthOf v) - 1 →
      (((gridCells v aD aW cD cW).filter (fun c => c.isCurrentMonth)).map
        (fun c => c.day)).count d = 1 := by
  obtain ⟨hm0, hm1, -, -⟩ := monthOf_sandwich v
  obtain ⟨hml28, hml31⟩ := monthLen_bounds (yearOfDay v) (monthOf v) hm0 hm1
  have hsucc := daysFromCivil_succ_month (yearOfDay v) (monthOf v) hm0 hm1
  obtain ⟨k, hk7, hk4, hk6⟩ := month_grid_span
    (daysFromCivil (yearOfDay v) (monthOf v) 1)
    (daysFromCivil (yearOfDay v) (monthOf v + 1) 1 - 1) (by omega) (by omega)
  have hday7 : ∀ r ∈ calendarRows v aD aW cD cW, r.days.length = 7 := by
    rw [calendarRows_eq]
    intro r hr
    obtain ⟨cur, hcur, rfl⟩ := List.mem_map.mp hr
    simp
  have hlen2 : (calendarRows v aD aW cD cW).length = k := by
    rw [calendarRows_eq, weekStarts_spec k 100 _ _ hk7 (by omega)]
    simp
  have hflat := (gridCells_eq v aD aW cD cW).trans
    (weekStarts_flatMap (fun d : Int =>
      ({ day := d
         date := dayOf d
         dateString := formatDate d
         isCurrentMonth := monthOf d == monthOf v
         isAvailable := aD (formatDate d)
         isSelected := cD == some (formatDate d) } : DayCell)) k 100 _ _ hk7 (by omega))
  rw [hflat]
  refine ⟨hday7, by rw [hlen2]; omega, ?_⟩
  refine grid_flat_shape (monthOf v) _ _ (daysFromCivil (yearOfDay v) (monthOf v) 1)
    (monthLen (yearOfDay v) (monthOf v)) k
    (fun d : Int =>
      ({ day := d
         date := dayOf d
         dateString := formatDate d
         isCurrentMonth := monthOf d == monthOf v
         isAvailable := aD (formatDate d)
         isSelected := cD == some (formatDate d) } : DayCell)) hk7 ?_
    ?_ ?_ ?_ ?_ ?_ ?_ ?_ ?_ ?_ ?_ ?_ ?_ ?_
  · omega
  · intro d
    rfl
  · intro d
    rfl
  · unfold weekday
    split_ifs <;> omega
  · unfold weekday
    split_ifs <;> omega
  · unfold weekday
    split_ifs <;> omega
  · unfold weekday
    split_ifs <;> omega
  · omega
  · omega
  · unfold weekday
    split_ifs <;> omega
  · unfold weekday
    split_ifs <;> omega
  · intro t ht0 ht
    exact (monthOf_in_month (yearOfDay v) (monthOf v) t hm0 hm1 ht0 ht).1
  · intro u h1 h6
    rw [monthOf_before_first (yearOfDay v) (monthOf v) u hm0 hm1 h1 h6]
    split_ifs <;> omega
  · intro u h1 h6
    have he : daysFromCivil (yearOfDay v) (monthOf v) 1 +
        monthLen (yearOfDay v) (monthOf v) - 1 + u =
        daysFromCivil (yearOfDay v) (monthOf v + 1) 1 + (u - 1) := by
      omega
    rw [he, monthOf_after_last (yearOfDay v) (monthOf v) u hm0 hm1 h1 h6]
    split_ifs <;> omega

theorem handleWeekClick_avail_false (s : ViewState) (r : WeekRow)
    (h : r.isWeekAvailable = false) : handleWeekClick s r = (s, none) := by
  unfold handleWeekClick
  rw [h]
  simp

theorem handleWeekClick_event (s : ViewState) (r : WeekRow) (ev : String)
    (h : (handleWeekClick s r).2 = some ev) :
    r.isWeekAvailable = true ∧ ev = r.weekString := by
  unfold handleWeekClick at h
  by_cases hb : r.isWeekAvailable
  · simp only [hb, if_true] at h
    exact ⟨hb, (Option.some_inj.mp h).symm⟩
  · simp only [Bool.not_eq_true] at hb
    simp [hb] at h

theorem handleDayClick_avail_false (s : ViewState) (c : DayCell)
    (h : c.isAvailable = false) : handleDayClick s c = (s, none) := by
  unfold handleDayClick
  rw [h]
  simp

theorem handleDayClick_event (s : ViewState) (c : DayCell) (ev : String)
    (h : (handleDayClick s c).2 = some ev) :
    c.isAvailable = true ∧ ev = c.dateString := by
  unfold handleDayClick at h
  by_cases hb : c.isAvailable
  · simp only [hb, if_true] at h
    exact ⟨hb, (Option.some_inj.mp h).symm⟩
  · simp only [Bool.not_eq_true] at hb
    simp [hb] at h

/-- C7: clicking a week row or day cell of the grid whose string is not
in the availability set leaves the whole view state unchanged and fires
no selection event; a fired event always carries an available string. -/
theorem unavailable_click_inert (s : ViewState) (v : Int)
    (aD aW : String → Bool) (cD cW : Option String) :
    ∀ r ∈ calendarRows v aD aW cD cW,
      (aW r.weekString = false → handleWeekClick s r = (s, none)) ∧
      (∀ ev, (handleWeekClick s r).2 = some ev → aW ev = true) ∧
      ∀ c ∈ r.days,
        (aD c.dateString = false → handleDayClick s c = (s, none)) ∧
        (∀ ev, (handleDayClick s c).2 = some ev → aD ev = true) := by
  rw [calendarRows_eq]
  intro r hr
  obtain ⟨cur, hcur, rfl⟩ := List.mem_map.mp hr
  refine ⟨?_, ?_, ?_⟩
  · intro hfalse
    exact handleWeekClick_avail_false s _ hfalse
  · intro ev hev
    obtain ⟨havail, rfl⟩ := handleWeekClick_event s _ ev hev
    exact havail
  · intro c hc
    obtain ⟨i, hi, rfl⟩ := List.mem_map.mp hc
    constructor
    · intro hfalse
      exact handleDayClick_avail_false s _ hfalse
    · intro ev hev
      obtain ⟨havail, rfl⟩ := handleDayClick_event s _ ev hev
      exact havail

/-- Witness for C4 on the January 2024 grid. -/
theorem calendar_grid_shape_witness :
    ((calendarRows (daysFromCivil 2024 0 15) (fun _ => false) (fun _ => false)
        none none).getD 0 default).days.length = 7 ∧
    ((calendarRows (daysFromCivil 2024 0 15) (fun _ => false) (fun _ => false)
        none none).length = 4 ∨
      (calendarRows (daysFromCivil 2024 0 15) (fun _ => false) (fun _ => false)
        none none).length = 5 ∨
      (calendarRows (daysFromCivil 2024 0 15) (fun _ => false) (fun _ => false)
        none none).length = 6) ∧
    (((gridCells (daysFromCivil 2024 0 15) (fun _ => false) (fun _ => false)
        none none).filter (fun c => c.isCurrentMonth)).map (fun c => c.day)).count
      (daysFromCivil 2024 0 1) = 1 := by
  obtain ⟨h1, h2, h3, h4, h5, h6⟩ := calendar_grid_shape (daysFromCivil 2024 0 15)
    (fun _ => false) (fun _ => false) none none
  refine ⟨h1 _ ?_, h2, h6 (daysFromCivil 2024 0 1) ?_ ?_⟩
  · decide
  · decide
  · decide

/-- Witness for C7: clicking the first (unavailable) cell of the
January 2024 grid changes nothing and emits nothing. -/
theorem unavailable_click_inert_witness :
    handleDayClick ⟨0, CalendarMode.calendar, 0⟩
        (((calendarRows (daysFromCivil 2024 0 15) (fun _ => false) (fun _ => false)
          none none).getD 0 default).days.getD 0 default) =
      (⟨0, CalendarMode.calendar, 0⟩, none) := by
  have h := unavailable_click_inert ⟨0, CalendarMode.calendar, 0⟩
    (daysFromCivil 2024 0 15) (fun _ => false) (fun _ => false) none none
  exact ((h ((calendarRows (daysFromCivil 2024 0 15) (fun _ => false) (fun _ => false)
      none none).getD 0 default) (by decide)).2.2
    (((calendarRows (daysFromCivil 2024 0 15) (fun _ => false) (fun _ => false)
      none none).getD 0 default).days.getD 0 default) (by decide)).1 (by decide)
